import Mathlib

/-!
Verification of the image-to-PDF converter (src/services/pdfService.ts and
src/App.tsx).

The page-layout arithmetic of `generatePdf` runs on JavaScript numbers; here it
is embedded over `ℚ`, which is exact on every value the code computes (the
constants are small integers and the operations are +, -, *, /).  The stateful
jsPDF document writer is modelled as the list of pages the loop in
`generatePdf` appends, each page recording exactly the drawing calls the code
issues for it.  The React state updates of `App.tsx` are modelled as pure
functions from the previous state to the next.
-/

namespace PdfService

/-- A decoded image: the pixel dimensions `img.width`, `img.height` that
`generatePdf` reads off the `HTMLImageElement` returned by `loadImage`. -/
structure SourceImage where
  width : ℚ
  height : ℚ
deriving DecidableEq, Repr

/-- `doc.internal.pageSize.getWidth()` for landscape A4 in millimetres. -/
def PAGE_WIDTH : ℚ := 297

/-- `doc.internal.pageSize.getHeight()` for landscape A4 in millimetres. -/
def PAGE_HEIGHT : ℚ := 210

/-- `const MARGIN = 15;` -/
def MARGIN : ℚ := 15

/-- `const FOOTER_HEIGHT = 20;` -/
def FOOTER_HEIGHT : ℚ := 20

/-- `const MAX_WIDTH = PAGE_WIDTH - MARGIN * 2;` -/
def MAX_WIDTH : ℚ := PAGE_WIDTH - MARGIN * 2

/-- `const MAX_HEIGHT = PAGE_HEIGHT - MARGIN * 2 - FOOTER_HEIGHT;` -/
def MAX_HEIGHT : ℚ := PAGE_HEIGHT - MARGIN * 2 - FOOTER_HEIGHT

/-- The geometry `doc.addImage(img, 'JPEG', x, y, imgFinalWidth,
imgFinalHeight)` receives for one image. -/
structure Placement where
  x : ℚ
  y : ℚ
  width : ℚ
  height : ℚ
deriving DecidableEq, Repr

/-- The placement block of `generatePdf` (pdfService.ts lines 63-81): the
aspect-ratio comparison choosing `imgFinalWidth`/`imgFinalHeight`, then the
centred `x` and top-margin `y`.  The spec calls this `computePlacement`. -/
def computePlacement (img : SourceImage) : Placement :=
  let imgRatio := img.width / img.height
  let maxRatio := MAX_WIDTH / MAX_HEIGHT
  let dims : ℚ × ℚ :=
    if imgRatio > maxRatio then
      (MAX_WIDTH, MAX_WIDTH / imgRatio)
    else
      (MAX_HEIGHT * imgRatio, MAX_HEIGHT)
  let imgFinalWidth := dims.1
  let imgFinalHeight := dims.2
  { x := (PAGE_WIDTH - imgFinalWidth) / 2
    y := MARGIN
    width := imgFinalWidth
    height := imgFinalHeight }

/-- The two text colours the code sets: `doc.setTextColor(100)` (gray) on the
success path and `doc.setTextColor(255, 0, 0)` (red) on the catch path. -/
inductive TextColor where
  | gray
  | red
deriving DecidableEq, Repr

/-- One page of the document, recording the drawing calls `generatePdf` issues
for it: either an image placed by `doc.addImage` plus the footer `doc.text`
call (text, position, colour, font size), or the catch-path error `doc.text`
call (text, position, colour). -/
inductive Page where
  | imagePage (placement : Placement) (footerText : String)
      (footerX footerY : ℚ) (footerColor : TextColor) (footerFontSize : ℚ)
  | errorPage (text : String) (x y : ℚ) (color : TextColor)
deriving DecidableEq, Repr

/-- One element of the `files` array together with the outcome of
`loadImage` on it: `decoded = some img` when the promise resolves with
dimensions `img`, `decoded = none` when it rejects. -/
structure InputImage where
  name : String
  decoded : Option SourceImage
deriving DecidableEq, Repr

/-- The body of the `for` loop of `generatePdf` for index `i` of `total`
files: on successful decode, place the image and draw the centred gray
footer `Page (i+1) of total` at `(PAGE_WIDTH / 2, PAGE_HEIGHT - MARGIN)`
in font size 10; on decode failure, draw the red error text at
`(MARGIN, MARGIN)`. -/
def makePage (total : Nat) (i : Nat) (file : InputImage) : Page :=
  match file.decoded with
  | some img =>
      Page.imagePage (computePlacement img)
        ("Page " ++ toString (i + 1) ++ " of " ++ toString total)
        (PAGE_WIDTH / 2) (PAGE_HEIGHT - MARGIN) TextColor.gray 10
  | none =>
      Page.errorPage ("Error: Could not load image \"" ++ file.name ++ "\"")
        MARGIN MARGIN TextColor.red

/-- The pages the `for` loop of `generatePdf` appends to the document, in
order: one page per element of `files` (`doc.addPage()` before each element
except the first). -/
def generatePdfPages (files : List InputImage) : List Page :=
  files.mapIdx (fun i file => makePage files.length i file)

/-- The footer `doc.text` string of a page, when the page has one (only
success pages do; the catch path draws no page-number footer). -/
def footerText? : Page → Option String
  | Page.imagePage _ t _ _ _ _ => some t
  | Page.errorPage _ _ _ _ => none

end PdfService

namespace App

open PdfService

/-- One entry of the `imageFiles` React state: the `ImageFile` interface of
App.tsx, `{ file, previewUrl }`.  The `File` object is represented by its
name. -/
structure ImageFile where
  name : String
  previewUrl : String
deriving DecidableEq, Repr

/-- `handleDrop` of App.tsx (lines 124-133) as a pure list operation.  The
code returns the state unchanged when either drag index is `null` or the two
indices coincide; otherwise it copies the array, `splice`s the dragged item
out at `dragItemIndex` and `splice`s it back in at `dragOverItemIndex`.  For
an in-range `dragItemIndex`, `splice(a, 1)` is `List.eraseIdx a` returning
the removed element, and `splice(b, 0, item)` is `List.insertIdx b item`;
for an out-of-range `dragItemIndex` the lookup misses and the state is kept
(the claims only concern in-range indices). -/
def handleDrop (imageFiles : List ImageFile)
    (dragItemIndex dragOverItemIndex : Nat) : List ImageFile :=
  if dragItemIndex = dragOverItemIndex then imageFiles
  else
    match imageFiles[dragItemIndex]? with
    | none => imageFiles
    | some draggedItem =>
        (imageFiles.eraseIdx dragItemIndex).insertIdx dragOverItemIndex
          draggedItem

/-- `handleRemoveFile` of App.tsx (lines 151-157).  The new state is
`prev.filter((_, index) => index !== indexToRemove)`, rendered here as a
filter over the index-value pairs `prev.enum`; the side effect is the single
call `URL.revokeObjectURL(prev[indexToRemove].previewUrl)`, rendered as the
list of URLs revoked by the update. -/
def handleRemoveFile (prev : List ImageFile) (indexToRemove : Nat) :
    List ImageFile × List String :=
  ((prev.enum.filter (fun p => p.1 ≠ indexToRemove)).map Prod.snd,
   match prev[indexToRemove]? with
   | some f => [f.previewUrl]
   | none => [])

/-- Outcome of `handleGeneratePdf` in App.tsx: either an early return with an
error message set (`setError(...)` then `return`), or a call to
`generatePdf` — modelled by the pages it appends — saving
`<trimmed filename>.pdf`. -/
inductive RunResult where
  | rejected (errorMessage : String)
  | generated (pages : List Page) (savedName : String)
deriving DecidableEq, Repr

/-- `handleGeneratePdf` of App.tsx (lines 159-181): reject when
`imageFiles.length === 0`, then when `!pdfFilename.trim()` (the trimmed
filename is empty), otherwise invoke `generatePdf` on the files with the
trimmed filename. -/
def handleGeneratePdf (imageFiles : List InputImage) (pdfFilename : String) :
    RunResult :=
  if imageFiles.length = 0 then
    RunResult.rejected "Please add at least one image."
  else if pdfFilename.trim = "" then
    RunResult.rejected "Please provide a filename for the PDF."
  else
    RunResult.generated (generatePdfPages imageFiles) (pdfFilename.trim ++ ".pdf")

end App

open PdfService App

section Helpers

/-- The pages list is a positional map of the input list: its `i`-th entry is
the page the loop body produces for the `i`-th file. -/
theorem generatePdfPages_getElem? (files : List InputImage) (i : Nat) :
    (generatePdfPages files)[i]? = (files[i]?).map (makePage files.length i) := by
  rcases Nat.lt_or_ge i files.length with h | h
  · have h2 : i < (generatePdfPages files).length := by
      simpa [generatePdfPages] using h
    rw [List.getElem?_eq_getElem h2, List.getElem?_eq_getElem h,
      Option.map_some']
    congr 1
    simp [generatePdfPages]
  · rw [List.getElem?_eq_none (by simpa [generatePdfPages] using h),
      List.getElem?_eq_none h, Option.map_none']

/-- Inserting an element at an in-bounds position is a permutation of
pushing it on the front. -/
theorem insertIdx_perm_cons {α : Type} (x : α) :
    ∀ (n : Nat) (l : List α), n ≤ l.length →
      (List.insertIdx n x l).Perm (x :: l)
  | 0, l, _ => by simp [List.insertIdx]
  | n + 1, [], h => by simp at h
  | n + 1, a :: l, h => by
      rw [List.insertIdx_succ_cons]
      exact ((insertIdx_perm_cons x n l (Nat.le_of_succ_le_succ h)).cons a).trans
        (List.Perm.swap x a l)

/-- A list is a permutation of its element at an in-bounds position consed
onto the list with that position erased. -/
theorem perm_cons_eraseIdx {α : Type} :
    ∀ (l : List α) (i : Nat) (h : i < l.length),
      l.Perm (l.get ⟨i, h⟩ :: l.eraseIdx i)
  | a :: l, 0, _ => by simp [List.eraseIdx]
  | a :: l, i + 1, h => by
      have ih := perm_cons_eraseIdx l i (Nat.lt_of_succ_lt_succ h)
      rw [List.eraseIdx_cons_succ]
      simpa using (ih.cons a).trans (List.Perm.swap _ a _)

/-- Filtering out an index below the enumeration start keeps every element. -/
theorem enumFrom_filter_ne_of_lt {α : Type} :
    ∀ (l : List α) (n j : Nat), j < n →
      ((List.enumFrom n l).filter (fun p => p.1 ≠ j)).map Prod.snd = l
  | [], _, _, _ => rfl
  | a :: l, n, j, h => by
      rw [List.enumFrom_cons, List.filter_cons]
      have hcond : (decide ((n, a).1 ≠ j)) = true := by
        simp only [decide_eq_true_eq]
        omega
      rw [hcond]
      simp only [if_true, List.map_cons]
      rw [enumFrom_filter_ne_of_lt l (n + 1) j (Nat.lt_succ_of_lt h)]

/-- Keeping the index-value pairs whose index differs from `n + i` is
erasing position `i`: the semantics of the JavaScript
`filter((_, index) => index !== i)` idiom. -/
theorem enumFrom_filter_ne_eraseIdx {α : Type} :
    ∀ (l : List α) (n i : Nat),
      ((List.enumFrom n l).filter (fun p => p.1 ≠ n + i)).map Prod.snd
        = l.eraseIdx i
  | [], _, _ => rfl
  | a :: l, n, 0 => by
      rw [List.enumFrom_cons, List.filter_cons]
      have hcond : (decide ((n, a).1 ≠ n + 0)) = false := by
        simp
      rw [hcond]
      simp only [if_false, List.eraseIdx_zero, List.eraseIdx]
      exact enumFrom_filter_ne_of_lt l (n + 1) (n + 0) (by omega)
  | a :: l, n, i + 1 => by
      rw [List.enumFrom_cons, List.filter_cons]
      have hcond : (decide ((n, a).1 ≠ n + (i + 1))) = true := by
        simp only [decide_eq_true_eq]
        omega
      rw [hcond]
      simp only [if_true, List.map_cons, List.eraseIdx_cons_succ]
      have harith : n + (i + 1) = (n + 1) + i := by omega
      rw [harith, enumFrom_filter_ne_eraseIdx l (n + 1) i]

end Helpers

/-- C1: for every source image, with imgRatio = width / height and
maxRatio = MAX_WIDTH / MAX_HEIGHT, the placement computed by `generatePdf`
has finalWidth = MAX_WIDTH and finalHeight = MAX_WIDTH / imgRatio when
imgRatio > maxRatio, and finalHeight = MAX_HEIGHT and
finalWidth = MAX_HEIGHT * imgRatio otherwise. -/
theorem C1_final_dimensions (img : SourceImage) :
    (img.width / img.height > MAX_WIDTH / MAX_HEIGHT →
      (computePlacement img).width = MAX_WIDTH ∧
      (computePlacement img).height = MAX_WIDTH / (img.width / img.height)) ∧
    (¬ img.width / img.height > MAX_WIDTH / MAX_HEIGHT →
      (computePlacement img).height = MAX_HEIGHT ∧
      (computePlacement img).width = MAX_HEIGHT * (img.width / img.height)) := by
  constructor <;> intro h <;>
    simp only [computePlacement, h, if_pos, if_neg, if_true, if_false] <;>
    simp [h]

/-- C1 witness: a 2:1 image is wider than the 267:160 content box, so its
placement is width-bound at MAX_WIDTH. -/
theorem C1_final_dimensions_witness :
    (computePlacement ⟨2, 1⟩).width = MAX_WIDTH ∧
    (computePlacement ⟨2, 1⟩).height
      = MAX_WIDTH / ((2 : ℚ) / 1) :=
  (C1_final_dimensions ⟨2, 1⟩).1
    (by norm_num [MAX_WIDTH, MAX_HEIGHT, PAGE_WIDTH, PAGE_HEIGHT, MARGIN,
      FOOTER_HEIGHT])

/-- C2: for every source image with positive dimensions the placement
preserves the aspect ratio exactly and fits in the content box, whose
dimensions are MAX_WIDTH = pageWidth - 2*margin and
MAX_HEIGHT = pageHeight - 2*margin - footerReserve. -/
theorem C2_aspect_ratio_and_fit (img : SourceImage)
    (hw : 0 < img.width) (hh : 0 < img.height) :
    (computePlacement img).width / (computePlacement img).height
        = img.width / img.height ∧
    (computePlacement img).width ≤ MAX_WIDTH ∧
    (computePlacement img).height ≤ MAX_HEIGHT ∧
    MAX_WIDTH = PAGE_WIDTH - 2 * MARGIN ∧
    MAX_HEIGHT = PAGE_HEIGHT - 2 * MARGIN - FOOTER_HEIGHT := by
  have hr : 0 < img.width / img.height := div_pos hw hh
  set r : ℚ := img.width / img.height with hrdef
  have hmw : MAX_WIDTH = 267 := by norm_num [MAX_WIDTH, PAGE_WIDTH, MARGIN]
  have hmh : MAX_HEIGHT = 160 := by
    norm_num [MAX_HEIGHT, PAGE_HEIGHT, MARGIN, FOOTER_HEIGHT]
  have hbox : MAX_WIDTH = PAGE_WIDTH - 2 * MARGIN ∧
      MAX_HEIGHT = PAGE_HEIGHT - 2 * MARGIN - FOOTER_HEIGHT := by
    constructor
    · rw [hmw]; norm_num [PAGE_WIDTH, MARGIN]
    · rw [hmh]; norm_num [PAGE_HEIGHT, MARGIN, FOOTER_HEIGHT]
  have main : (computePlacement img).width / (computePlacement img).height
        = r ∧
      (computePlacement img).width ≤ MAX_WIDTH ∧
      (computePlacement img).height ≤ MAX_HEIGHT := ?_
  · exact ⟨main.1, main.2.1, main.2.2, hbox.1, hbox.2⟩
  by_cases h : r > MAX_WIDTH / MAX_HEIGHT
  · have hw' : (computePlacement img).width = MAX_WIDTH := by
      simp only [computePlacement, ← hrdef, if_pos h]
    have hh' : (computePlacement img).height = MAX_WIDTH / r := by
      simp only [computePlacement, ← hrdef, if_pos h]
    refine ⟨?_, ?_, ?_⟩
    · rw [hw', hh', hmw]
      field_simp
    · rw [hw']
    · rw [hh', hmw, hmh] at *
      rw [div_le_iff₀ hr]
      have : (267 : ℚ) / 160 < r := by rw [← hmw, ← hmh] at *; exact h
      nlinarith
  · have hw' : (computePlacement img).width = MAX_HEIGHT * r := by
      simp only [computePlacement, ← hrdef, if_neg h]
    have hh' : (computePlacement img).height = MAX_HEIGHT := by
      simp only [computePlacement, ← hrdef, if_neg h]
    refine ⟨?_, ?_, ?_⟩
    · rw [hw', hh', hmh]
      field_simp
    · rw [hw', hmw, hmh]
      have h' : r ≤ (267 : ℚ) / 160 := by
        rw [hmw, hmh] at h; exact le_of_not_lt h
      nlinarith
    · rw [hh']

/-- C2 witness: a 1:3 portrait image has positive dimensions, keeps its
aspect ratio and fits in the content box. -/
theorem C2_aspect_ratio_and_fit_witness :
    (computePlacement ⟨1, 3⟩).width / (computePlacement ⟨1, 3⟩).height
        = (1 : ℚ) / 3 ∧
    (computePlacement ⟨1, 3⟩).width ≤ MAX_WIDTH ∧
    (computePlacement ⟨1, 3⟩).height ≤ MAX_HEIGHT ∧
    MAX_WIDTH = PAGE_WIDTH - 2 * MARGIN ∧
    MAX_HEIGHT = PAGE_HEIGHT - 2 * MARGIN - FOOTER_HEIGHT :=
  C2_aspect_ratio_and_fit ⟨1, 3⟩ (by norm_num) (by norm_num)

/-- C3: for every source image, whatever the aspect ratio, the placement is
horizontally centred (x + width / 2 = pageWidth / 2) and top-aligned at the
margin (y = MARGIN). -/
theorem C3_centered_top_aligned (img : SourceImage) :
    (computePlacement img).x + (computePlacement img).width / 2
        = PAGE_WIDTH / 2 ∧
    (computePlacement img).y = MARGIN := by
  refine ⟨?_, rfl⟩
  simp only [computePlacement]
  ring

/-- C4: the document has exactly one page per input image — page count
equals image count — and an image whose decode fails still yields its own
error page. -/
theorem C4_page_count_eq_image_count (files : List InputImage) :
    (generatePdfPages files).length = files.length ∧
    (∀ (i : Nat) (file : InputImage), files[i]? = some file →
      file.decoded = none →
      (generatePdfPages files)[i]? =
        some (Page.errorPage
          ("Error: Could not load image \"" ++ file.name ++ "\"")
          MARGIN MARGIN TextColor.red)) := by
  refine ⟨by simp [generatePdfPages], ?_⟩
  intro i file hfile hdec
  rw [generatePdfPages_getElem?, hfile, Option.map_some']
  simp [makePage, hdec]

/-- C4 witness: a single failing image still yields a one-page document,
and that page is its error page. -/
theorem C4_page_count_eq_image_count_witness :
    (generatePdfPages [⟨"a", none⟩]).length = 1 ∧
    (generatePdfPages [⟨"a", none⟩])[0]? =
      some (Page.errorPage "Error: Could not load image \"a\"" MARGIN MARGIN
        TextColor.red) := by
  have h := C4_page_count_eq_image_count [⟨"a", none⟩]
  refine ⟨h.1, ?_⟩
  exact h.2 0 ⟨"a", none⟩ rfl rfl

/-- C5 counterexample: a document assembled from one image whose decode
fails has a page 1, but that page carries no footer at all — its footer is
not the claimed `Page 1 of 1`. -/
theorem C5_counterexample_failed_page_has_no_footer :
    (generatePdfPages [⟨"a", none⟩]).map footerText? = [none] ∧
    [(none : Option String)] ≠ [some "Page 1 of 1"] := by
  constructor
  · rfl
  · decide

/-- C5 amended: for every page produced from a successfully decoded image,
the footer reads exactly `Page i of N` (1-based) and is rendered centred at
`(pageWidth / 2, pageHeight - margin)` in gray at font size 10; a page whose
image failed to decode carries no footer. -/
theorem C5_footer_of_decoded_page (files : List InputImage) (i : Nat)
    (h : i < files.length) :
    (∀ img, files[i].decoded = some img →
      (generatePdfPages files)[i]? =
        some (Page.imagePage (computePlacement img)
          ("Page " ++ toString (i + 1) ++ " of " ++ toString files.length)
          (PAGE_WIDTH / 2) (PAGE_HEIGHT - MARGIN) TextColor.gray 10)) ∧
    (files[i].decoded = none →
      ((generatePdfPages files)[i]?).bind footerText? = none) := by
  constructor
  · intro img hdec
    rw [generatePdfPages_getElem?, List.getElem?_eq_getElem h, Option.map_some']
    simp [makePage, hdec]
  · intro hdec
    rw [generatePdfPages_getElem?, List.getElem?_eq_getElem h, Option.map_some']
    simp [makePage, hdec, footerText?]

/-- C5 witness: the single page of a document from one decoded 2:1 image
has footer `Page 1 of 1` centred at the bottom margin. -/
theorem C5_footer_of_decoded_page_witness :
    (generatePdfPages [⟨"a", some ⟨2, 1⟩⟩])[0]? =
      some (Page.imagePage (computePlacement ⟨2, 1⟩) "Page 1 of 1"
        (PAGE_WIDTH / 2) (PAGE_HEIGHT - MARGIN) TextColor.gray 10) :=
  (C5_footer_of_decoded_page [⟨"a", some ⟨2, 1⟩⟩] 0 (by norm_num)).1 ⟨2, 1⟩ rfl

/-- C6: a failed decode yields a page whose red text at the top margin shows
the line `Could not load image "<name>"`, the document still has one page
per image, and every other page is exactly the page computed from its own
input image (the failure is isolated and the run continues). -/
theorem C6_error_page_isolated (files : List InputImage) (i : Nat)
    (h : i < files.length) (hdec : files[i].decoded = none) :
    (∃ s, (generatePdfPages files)[i]? =
      some (Page.errorPage
        (s ++ ("Could not load image \"" ++ files[i].name ++ "\""))
        MARGIN MARGIN TextColor.red)) ∧
    (generatePdfPages files).length = files.length ∧
    (∀ j, j ≠ i → (generatePdfPages files)[j]?
        = (files[j]?).map (makePage files.length j)) := by
  refine ⟨⟨"Error: ", ?_⟩, by simp [generatePdfPages], ?_⟩
  · rw [generatePdfPages_getElem?, List.getElem?_eq_getElem h, Option.map_some']
    simp only [makePage, hdec]
    rw [← String.append_assoc, ← String.append_assoc]
    rfl
  · intro j _
    exact generatePdfPages_getElem? files j

/-- C6 witness: with a failing first image and a decodable second one, page
1 is the red error page for the first image. -/
theorem C6_error_page_isolated_witness :
    ∃ s, (generatePdfPages [⟨"a", none⟩, ⟨"b", some ⟨1, 1⟩⟩])[0]? =
      some (Page.errorPage
        (s ++ ("Could not load image \"" ++ "a" ++ "\""))
        MARGIN MARGIN TextColor.red) :=
  (C6_error_page_isolated [⟨"a", none⟩, ⟨"b", some ⟨1, 1⟩⟩] 0 (by norm_num)
    rfl).1

/-- C7: the assembler emits one page per image in input order — the page at
position i is the page the loop body computes from the image at position i —
and, being a pure function of the input list, is stateless per call. -/
theorem C7_pages_in_input_order (files : List InputImage) (i : Nat)
    (h : i < files.length) :
    (generatePdfPages files).length = files.length ∧
    (generatePdfPages files)[i]? = some (makePage files.length i files[i]) := by
  refine ⟨by simp [generatePdfPages], ?_⟩
  rw [generatePdfPages_getElem?, List.getElem?_eq_getElem h, Option.map_some']

/-- C7 witness: in a two-image run the second page is computed from the
second image. -/
theorem C7_pages_in_input_order_witness :
    (generatePdfPages [⟨"a", none⟩, ⟨"b", some ⟨1, 1⟩⟩])[1]? =
      some (makePage 2 1 ⟨"b", some ⟨1, 1⟩⟩) :=
  (C7_pages_in_input_order [⟨"a", none⟩, ⟨"b", some ⟨1, 1⟩⟩] 1 (by norm_num)).2

/-- C8: an empty image list or a filename that trims to empty makes
`handleGeneratePdf` reject the run with a message; the result is never the
`generated` outcome, so `generatePdf` is not invoked and no page is
produced. -/
theorem C8_caller_validation_rejects (imageFiles : List InputImage)
    (pdfFilename : String)
    (h : imageFiles = [] ∨ pdfFilename.trim = "") :
    (∃ msg, handleGeneratePdf imageFiles pdfFilename
        = RunResult.rejected msg) ∧
    ∀ pages savedName, handleGeneratePdf imageFiles pdfFilename
        ≠ RunResult.generated pages savedName := by
  have hrej : ∃ msg, handleGeneratePdf imageFiles pdfFilename
      = RunResult.rejected msg := by
    rcases h with h | h
    · subst h
      exact ⟨"Please add at least one image.", by simp [handleGeneratePdf]⟩
    · by_cases h0 : imageFiles.length = 0
      · exact ⟨"Please add at least one image.", by
          simp [handleGeneratePdf, h0]⟩
      · exact ⟨"Please provide a filename for the PDF.", by
          simp [handleGeneratePdf, h0, h]⟩
  obtain ⟨msg, hmsg⟩ := hrej
  exact ⟨⟨msg, hmsg⟩, fun pages savedName hcon => by
    rw [hmsg] at hcon; exact RunResult.noConfusion hcon⟩

/-- C8 witness: an empty image list is rejected with a message. -/
theorem C8_caller_validation_rejects_witness :
    ∃ msg, handleGeneratePdf ([] : List InputImage) "photos"
      = RunResult.rejected msg :=
  (C8_caller_validation_rejects [] "photos" (Or.inl rfl)).1

/-- C9: for in-range distinct indices, a drag-reorder yields the list with
the element at the drag index removed and reinserted at the drop index;
the length and the multiset of elements are preserved. -/
theorem C9_drag_reorder_move (files : List ImageFile) (a b : Nat)
    (ha : a < files.length) (hb : b < files.length) (hab : a ≠ b) :
    handleDrop files a b = (files.eraseIdx a).insertIdx b files[a] ∧
    (handleDrop files a b).length = files.length ∧
    (handleDrop files a b).Perm files := by
  have heq : handleDrop files a b
      = (files.eraseIdx a).insertIdx b files[a] := by
    rw [handleDrop, if_neg hab, List.getElem?_eq_getElem ha]
  have hlen : (files.eraseIdx a).length = files.length - 1 := by
    rw [List.length_eraseIdx, if_pos ha]
  have hble : b ≤ (files.eraseIdx a).length := by omega
  refine ⟨heq, ?_, ?_⟩
  · rw [heq, List.length_insertIdx b _ hble, hlen]
    omega
  · rw [heq]
    exact (insertIdx_perm_cons files[a] b _ hble).trans
      (perm_cons_eraseIdx files a ha).symm

/-- C9 witness: dragging the first of three entries onto the third moves it
there. -/
theorem C9_drag_reorder_move_witness :
    handleDrop [⟨"a", "1"⟩, ⟨"b", "2"⟩, ⟨"c", "3"⟩] 0 2
      = (([⟨"a", "1"⟩, ⟨"b", "2"⟩, ⟨"c", "3"⟩] :
          List ImageFile).eraseIdx 0).insertIdx 2 ⟨"a", "1"⟩ :=
  (C9_drag_reorder_move [⟨"a", "1"⟩, ⟨"b", "2"⟩, ⟨"c", "3"⟩] 0 2 (by norm_num)
    (by norm_num) (by norm_num)).1

/-- C10: removing the entry at an in-range index yields the original list
with exactly that element deleted (equivalently, the part before it followed
by the part after it, so the others keep their relative order), and the
revoked preview URLs are exactly the removed entry's one. -/
theorem C10_remove_file_deletes_exactly_index (prev : List ImageFile)
    (i : Nat) (h : i < prev.length) :
    (handleRemoveFile prev i).1 = prev.eraseIdx i ∧
    (handleRemoveFile prev i).1 = prev.take i ++ prev.drop (i + 1) ∧
    (handleRemoveFile prev i).2 = [prev[i].previewUrl] := by
  have h1 : (handleRemoveFile prev i).1 = prev.eraseIdx i := by
    show ((prev.enum.filter (fun p => p.1 ≠ i)).map Prod.snd) = prev.eraseIdx i
    have := enumFrom_filter_ne_eraseIdx prev 0 i
    simpa [List.enum] using this
  refine ⟨h1, ?_, ?_⟩
  · rw [h1, List.eraseIdx_eq_take_drop_succ]
  · show (match prev[i]? with
      | some f => [f.previewUrl]
      | none => ([] : List String)) = [prev[i].previewUrl]
    rw [List.getElem?_eq_getElem h]

/-- C10 witness: removing the middle of three entries keeps the outer two in
order and revokes only the middle preview URL. -/
theorem C10_remove_file_deletes_exactly_index_witness :
    (handleRemoveFile [⟨"a", "1"⟩, ⟨"b", "2"⟩, ⟨"c", "3"⟩] 1).1
        = ([⟨"a", "1"⟩, ⟨"b", "2"⟩, ⟨"c", "3"⟩] : List ImageFile).eraseIdx 1 ∧
    (handleRemoveFile [⟨"a", "1"⟩, ⟨"b", "2"⟩, ⟨"c", "3"⟩] 1).2 = ["2"] := by
  have h := C10_remove_file_deletes_exactly_index
    [⟨"a", "1"⟩, ⟨"b", "2"⟩, ⟨"c", "3"⟩] 1 (by norm_num)
  exact ⟨h.1, h.2.2⟩
